import Mathlib

/-!
Shallow embedding of the cloud-retail order-placement saga and inventory
reservation ledger.

The inventory ledger service (Express routes over a Postgres `inventory`
table) is embedded as pure functions over a list of inventory rows.
JavaScript numbers are modelled as exact rationals; every concrete value
used in the theorems is an integer, matching the INTEGER columns.
The Postgres CHECK constraints and the `check_inventory_sanity` trigger
from the service's db initialisation are part of every row write: a write
whose resulting row violates them aborts the transaction, which the route
surfaces as an internal error with the table unchanged.
-/

namespace CloudRetail

/-- One row of the `inventory` table: product id primary key, stock and
reserved quantities, optimistic-concurrency version counter.  The
`updated_at` timestamp column carries no contract and is omitted. -/
structure InventoryRecord where
  product_id : String
  stock_quantity : ℚ
  reserved_quantity : ℚ
  version : Int
deriving Repr, DecidableEq

/-- Derived available stock of a row: stock minus reserved. -/
def availOf (r : InventoryRecord) : ℚ :=
  r.stock_quantity - r.reserved_quantity

/-- The database-level row checks from the inventory db initialisation:
the two CHECK constraints (stock_quantity >= 0, reserved_quantity >= 0)
and the check_inventory_sanity trigger (stock - reserved >= 0). -/
def checkRow (r : InventoryRecord) : Bool :=
  decide (0 ≤ r.stock_quantity) && decide (0 ≤ r.reserved_quantity) &&
    decide (0 ≤ r.stock_quantity - r.reserved_quantity)

/-- The inventory table: a list of rows (product_id is the primary key,
so at most one row per product in any real table state). -/
abbrev Inventory := List InventoryRecord

/-- SELECT * FROM inventory WHERE product_id = pid (first matching row). -/
def findRecord : Inventory → String → Option InventoryRecord
  | [], _ => none
  | r :: rest, pid => if r.product_id = pid then some r else findRecord rest pid

/-- UPDATE of the row keyed by pid to the new row value r. -/
def setRecord : Inventory → String → InventoryRecord → Inventory
  | [], _, _ => []
  | x :: rest, pid, r => (if x.product_id = pid then r else x) :: setRecord rest pid r

/-- A table state in which every row passes the database row checks.
Every reachable database state has this shape, because the checks are
enforced on every INSERT and UPDATE. -/
def wfInv (inv : Inventory) : Prop := ∀ r ∈ inv, checkRow r = true

/-- Derived availability of a product in a table state. -/
def availableOf (inv : Inventory) (pid : String) : Option ℚ :=
  (findRecord inv pid).map availOf

/-- Outcomes of POST /inventory/reserve. -/
inductive ReserveResult where
  | validationError
  | notFound
  | insufficientStock (available requested : ℚ)
  | concurrentModification
  | internalError
  | ok (available : ℚ)
deriving Repr, DecidableEq

/-- The row produced by the reserve UPDATE: reserved_quantity incremented
by q, version incremented, stock untouched. -/
def reserveRow (rec : InventoryRecord) (q : ℚ) : InventoryRecord :=
  { rec with reserved_quantity := rec.reserved_quantity + q, version := rec.version + 1 }

/-- The version-conditioned UPDATE of the reserve route, run against the
table state current at update time: matches the row only if its version
still equals the version read under the row lock; a matched write is then
subject to the database row checks. -/
def reserveUpdate (inv : Inventory) (pid : String) (q : ℚ) (expectedVersion : Int) :
    ReserveResult × Inventory :=
  match findRecord inv pid with
  | none => (.concurrentModification, inv)
  | some rec =>
    if rec.version = expectedVersion then
      if checkRow (reserveRow rec q) then
        (.ok (availOf (reserveRow rec q)), setRecord inv pid (reserveRow rec q))
      else (.internalError, inv)
    else (.concurrentModification, inv)

/-- POST /inventory/reserve: validate, lock-read the row, check available
stock, then perform the version-conditioned update.  In this sequential
embedding the update runs against the same state that was read. -/
def reserve (inv : Inventory) (pid : String) (q : ℚ) : ReserveResult × Inventory :=
  if pid = "" ∨ q ≤ 0 then (.validationError, inv)
  else
    match findRecord inv pid with
    | none => (.notFound, inv)
    | some rec =>
      if availOf rec < q then (.insufficientStock (availOf rec) q, inv)
      else reserveUpdate inv pid q rec.version

/-- Outcomes of POST /inventory/confirm-reservation and
POST /inventory/release-reservation. -/
inductive MutateResult where
  | validationError
  | notFound
  | internalError
  | ok
deriving Repr, DecidableEq

/-- The row produced by the confirm UPDATE: stock and reserved both
decremented by q; the version column is not touched by this route. -/
def confirmRow (rec : InventoryRecord) (q : ℚ) : InventoryRecord :=
  { rec with stock_quantity := rec.stock_quantity - q,
             reserved_quantity := rec.reserved_quantity - q }

/-- POST /inventory/confirm-reservation: validate, UPDATE the row
decrementing stock and reserved; zero matched rows is NotFound; a write
rejected by the database row checks aborts with the table unchanged. -/
def confirmReservation (inv : Inventory) (pid : String) (q : ℚ) :
    MutateResult × Inventory :=
  if pid = "" ∨ q ≤ 0 then (.validationError, inv)
  else
    match findRecord inv pid with
    | none => (.notFound, inv)
    | some rec =>
      if checkRow (confirmRow rec q) then (.ok, setRecord inv pid (confirmRow rec q))
      else (.internalError, inv)

/-- The row produced by the release UPDATE: only reserved_quantity
decremented by q; stock and version untouched. -/
def releaseRow (rec : InventoryRecord) (q : ℚ) : InventoryRecord :=
  { rec with reserved_quantity := rec.reserved_quantity - q }

/-- POST /inventory/release-reservation: validate, UPDATE the row
decrementing reserved_quantity; zero matched rows is NotFound; a write
rejected by the database row checks aborts with the table unchanged. -/
def releaseReservation (inv : Inventory) (pid : String) (q : ℚ) :
    MutateResult × Inventory :=
  if pid = "" ∨ q ≤ 0 then (.validationError, inv)
  else
    match findRecord inv pid with
    | none => (.notFound, inv)
    | some rec =>
      if checkRow (releaseRow rec q) then (.ok, setRecord inv pid (releaseRow rec q))
      else (.internalError, inv)

/-!
The idempotent event consumer: POST /inventory/webhook/order-created.
The in-process `processedEvents` map is embedded as an association list
from event id to the stored entry; the handler takes the current wall
clock as an explicit natural-number parameter (milliseconds), used only
for the stored timestamp and the size-triggered pruning sweep.
-/

/-- The value stored in the processedEvents map for a consumed event. -/
structure ProcessedEntry where
  timestamp : Nat
  order_id : String
  product_id : String
  quantity : ℚ
deriving Repr, DecidableEq

/-- The processedEvents map: event id keys with their stored entries. -/
abbrev ProcessedEvents := List (String × ProcessedEntry)

/-- processedEvents.has / .get for an event id. -/
def lookupEvent : ProcessedEvents → String → Option ProcessedEntry
  | [], _ => none
  | (k, e) :: rest, eid => if k = eid then some e else lookupEvent rest eid

/-- The cleanup sweep run after a successful confirmation: when the map
holds more than 10000 entries, delete every entry whose timestamp is
older than one hour before now. -/
def pruneEvents (pe : ProcessedEvents) (now : Nat) : ProcessedEvents :=
  if 10000 < pe.length then
    pe.filter (fun p => decide (now - 3600000 ≤ p.2.timestamp))
  else pe

/-- The body of an OrderCreated notification as the webhook reads it.
A missing event_id, order_id or product_id field is modelled by the
empty string (falsy, like the absent field); a missing or falsy
quantity by 0. -/
structure WebhookRequest where
  event_id : String
  order_id : String
  product_id : String
  quantity : ℚ
deriving Repr, DecidableEq

/-- Outcomes of the webhook: 400 validation error, 200 with
duplicate true, 200 success, or the propagated status and body of a
failed confirm-reservation call. -/
inductive WebhookResult where
  | validationError
  | duplicate
  | success
  | confirmFailed (r : MutateResult)
deriving Repr, DecidableEq

/-- POST /inventory/webhook/order-created: validate required fields,
answer duplicates from the processedEvents map without touching
inventory, otherwise call confirm-reservation; on success record the
event id (then prune), on failure propagate the confirm outcome and
record nothing. -/
def webhookOrderCreated (inv : Inventory) (pe : ProcessedEvents)
    (req : WebhookRequest) (now : Nat) :
    WebhookResult × Inventory × ProcessedEvents :=
  if req.event_id = "" ∨ req.product_id = "" ∨ req.quantity = 0 then
    (.validationError, inv, pe)
  else if (lookupEvent pe req.event_id).isSome then (.duplicate, inv, pe)
  else
    let c := confirmReservation inv req.product_id req.quantity
    match c.1 with
    | .ok =>
      let pe2 := (req.event_id,
        ⟨now, req.order_id, req.product_id, req.quantity⟩) :: pe
      (.success, c.2, pruneEvents pe2 now)
    | r => (.confirmFailed r, c.2, pe)

/-- Sequential deliveries of one notification at the given sequence of
wall-clock instants, threading the inventory and processedEvents state. -/
def deliverAll (req : WebhookRequest) (inv : Inventory) (pe : ProcessedEvents) :
    List Nat → Inventory × ProcessedEvents
  | [] => (inv, pe)
  | t :: ts =>
    let r := webhookOrderCreated inv pe req t
    deliverAll req r.2.1 r.2.2 ts

/-!
The order orchestrator: POST /orders of the order service.  External
collaborators (product lookup, the EventBridge publish, the outcome of
the local INSERT, the compensating release HTTP call) are injected as an
environment of step outcomes; the synchronous reserve and release calls
go to the ledger embedding above.  The order id generated by the
database for the inserted row is injected as well.
-/

/-- One row of the `orders` table. -/
structure Order where
  id : String
  user_id : String
  product_id : String
  quantity : ℚ
  total_price : ℚ
  status : String
  idempotency_key : Option String
deriving Repr, DecidableEq

/-- The request body of POST /orders.  A quantity field that is absent
or not a number is modelled by none; a present numeric field by its
rational value.  Missing userId / productId are the empty string. -/
structure OrderRequest where
  userId : String
  productId : String
  quantity : Option ℚ
  idempotencyKey : Option String
deriving Repr, DecidableEq

/-- Outcome of the external product lookup for the requested product. -/
inductive LookupOutcome where
  | found (price : ℚ)
  | notFound
  | unavailable
deriving Repr, DecidableEq

/-- Injected outcomes of the orchestrator's external steps. -/
structure SagaEnv where
  lookup : LookupOutcome
  insertFails : Bool
  publishFails : Bool
  releaseFails : Bool
  newOrderId : String
deriving Repr, DecidableEq

/-- The outbound calls the orchestrator makes, in order. -/
inductive SagaCall where
  | lookupCall (pid : String)
  | reserveCall (pid : String) (q : ℚ)
  | insertCall
  | publishCall
  | releaseCall (pid : String) (q : ℚ)
deriving Repr, DecidableEq

/-- Number of release-reservation calls for the given product and
quantity in a call log. -/
def countReleaseCalls : List SagaCall → String → ℚ → Nat
  | [], _, _ => 0
  | .releaseCall p qq :: rest, pid, q =>
    (if p = pid ∧ qq = q then 1 else 0) + countReleaseCalls rest pid q
  | _ :: rest, pid, q => countReleaseCalls rest pid q

/-- The combined store the orchestrator touches: the inventory table
(via the ledger service) and its own orders table. -/
structure SysState where
  inventory : Inventory
  orders : List Order
deriving Repr, DecidableEq

/-- Responses of POST /orders. -/
inductive OrderResponse where
  | validationError
  | duplicateOrder (o : Order)
  | productNotFound
  | productNotInInventory
  | insufficientStock (available requested : ℚ)
  | serviceUnavailable
  | internalError
  | created (o : Order) (available : ℚ)
deriving Repr, DecidableEq

/-- Step 1 of POST /orders: the two validation checks.  The first
rejects a falsy userId, productId or quantity; the second rejects a
quantity outside the interval from 0 exclusive to 10000 inclusive
(a non-number quantity, modelled by none, is also rejected). -/
def validateOrder (r : OrderRequest) : Bool :=
  if r.userId = "" ∨ r.productId = "" ∨ r.quantity.getD 0 = 0 then false
  else
    match r.quantity with
    | none => false
    | some q => if q ≤ 0 ∨ 10000 < q then false else true

/-- SELECT * FROM orders WHERE idempotency_key = k (first matching row). -/
def findOrderByKey : List Order → String → Option Order
  | [], _ => none
  | o :: rest, k =>
    if o.idempotency_key = some k then some o else findOrderByKey rest k

/-- Number of order rows carrying the given idempotency key. -/
def countOrdersWithKey : List Order → String → Nat
  | [], _ => 0
  | o :: rest, k =>
    (if o.idempotency_key = some k then 1 else 0) + countOrdersWithKey rest k

/-- Step 2 of POST /orders: when a truthy idempotency key is supplied,
look for an existing order row with that key. -/
def idemLookup (s : SysState) (r : OrderRequest) : Option Order :=
  match r.idempotencyKey with
  | some k => if k = "" then none else findOrderByKey s.orders k
  | none => none

/-- The idempotency key stored on the inserted row: a falsy key is
stored as null. -/
def storedKey (r : OrderRequest) : Option String :=
  match r.idempotencyKey with
  | some k => if k = "" then none else some k
  | none => none

/-- Step 9 of POST /orders: the compensating release-reservation call.
A failing HTTP call leaves the ledger untouched and is only logged;
otherwise the ledger applies the release. -/
def runCompensation (env : SagaEnv) (inv : Inventory) (pid : String) (q : ℚ) :
    Inventory :=
  if env.releaseFails then inv else (releaseReservation inv pid q).2

/-- POST /orders: validation, idempotency check, product lookup, stock
reservation, then the local transaction inserting the order row and
publishing the OrderCreated event; a failure of the insert or the
publish rolls the transaction back and runs the release compensation
from the catch-all boundary before answering with an internal error. -/
def createOrder (env : SagaEnv) (s : SysState) (r : OrderRequest) :
    OrderResponse × SysState × List SagaCall :=
  if validateOrder r = false then (.validationError, s, [])
  else
    let q := r.quantity.getD 0
    match idemLookup s r with
    | some existing => (.duplicateOrder existing, s, [])
    | none =>
      match env.lookup with
      | .notFound => (.productNotFound, s, [.lookupCall r.productId])
      | .unavailable => (.serviceUnavailable, s, [.lookupCall r.productId])
      | .found price =>
        let res := reserve s.inventory r.productId q
        let log0 : List SagaCall :=
          [.lookupCall r.productId, .reserveCall r.productId q]
        match res.1 with
        | .insufficientStock a _ => (.insufficientStock a q, s, log0)
        | .notFound => (.productNotInInventory, s, log0)
        | .ok available =>
          if env.insertFails then
            (.internalError,
              ⟨runCompensation env res.2 r.productId q, s.orders⟩,
              log0 ++ [.insertCall, .releaseCall r.productId q])
          else
            let order : Order :=
              ⟨env.newOrderId, r.userId, r.productId, q, price * q, "pending",
                storedKey r⟩
            if env.publishFails then
              (.internalError,
                ⟨runCompensation env res.2 r.productId q, s.orders⟩,
                log0 ++ [.insertCall, .publishCall, .releaseCall r.productId q])
            else
              (.created order available,
                ⟨res.2, s.orders ++ [order]⟩,
                log0 ++ [.insertCall, .publishCall])
        | _ => (.serviceUnavailable, s, log0)

/-!
Helper lemmas about the table primitives and the three ledger routes.
-/

theorem checkRow_iff {r : InventoryRecord} :
    checkRow r = true ↔
      0 ≤ r.stock_quantity ∧ 0 ≤ r.reserved_quantity ∧
        0 ≤ r.stock_quantity - r.reserved_quantity := by
  simp [checkRow, and_assoc]

theorem findRecord_mem : ∀ {inv : Inventory} {pid : String} {rec : InventoryRecord},
    findRecord inv pid = some rec → rec ∈ inv
  | [], _, _, h => by simp [findRecord] at h
  | x :: rest, pid, rec, h => by
    by_cases hx : x.product_id = pid
    · rw [findRecord, if_pos hx] at h
      exact (Option.some_injective _ h) ▸ List.mem_cons_self x rest
    · rw [findRecord, if_neg hx] at h
      exact List.mem_cons_of_mem x (findRecord_mem h)

theorem findRecord_pid : ∀ {inv : Inventory} {pid : String} {rec : InventoryRecord},
    findRecord inv pid = some rec → rec.product_id = pid
  | [], _, _, h => by simp [findRecord] at h
  | x :: rest, pid, rec, h => by
    by_cases hx : x.product_id = pid
    · rw [findRecord, if_pos hx] at h
      exact (Option.some_injective _ h) ▸ hx
    · rw [findRecord, if_neg hx] at h
      exact findRecord_pid h

theorem wfInv_find {inv : Inventory} {pid : String} {rec : InventoryRecord}
    (hwf : wfInv inv) (h : findRecord inv pid = some rec) : checkRow rec = true :=
  hwf rec (findRecord_mem h)

theorem mem_setRecord : ∀ {inv : Inventory} {pid : String} {r x : InventoryRecord},
    x ∈ setRecord inv pid r → x = r ∨ x ∈ inv
  | [], _, _, _, hx => by simp [setRecord] at hx
  | a :: rest, pid, r, x, hx => by
    rw [setRecord, List.mem_cons] at hx
    rcases hx with hx | hx
    · by_cases ha : a.product_id = pid
      · rw [if_pos ha] at hx
        exact Or.inl hx
      · rw [if_neg ha] at hx
        exact Or.inr (hx ▸ List.mem_cons_self a rest)
    · rcases mem_setRecord hx with h | h
      · exact Or.inl h
      · exact Or.inr (List.mem_cons_of_mem a h)

theorem wfInv_setRecord {inv : Inventory} {pid : String} {r : InventoryRecord}
    (hwf : wfInv inv) (hr : checkRow r = true) : wfInv (setRecord inv pid r) := by
  intro x hx
  rcases mem_setRecord hx with h | h
  · exact h ▸ hr
  · exact hwf x h

theorem findRecord_setRecord_self :
    ∀ {inv : Inventory} {pid : String} {rec r : InventoryRecord},
    findRecord inv pid = some rec → r.product_id = pid →
    findRecord (setRecord inv pid r) pid = some r
  | [], _, _, _, h, _ => by simp [findRecord] at h
  | a :: rest, pid, rec, r, h, hr => by
    by_cases ha : a.product_id = pid
    · rw [setRecord, if_pos ha, findRecord, if_pos hr]
    · rw [findRecord, if_neg ha] at h
      rw [setRecord, if_neg ha, findRecord, if_neg ha]
      exact findRecord_setRecord_self h hr

theorem reserve_ok_of {inv : Inventory} {pid : String} {q : ℚ} {rec : InventoryRecord}
    (hwf : wfInv inv) (hpid : pid ≠ "") (hq : 0 < q)
    (hfind : findRecord inv pid = some rec) (hav : q ≤ availOf rec) :
    reserve inv pid q =
      (.ok (availOf (reserveRow rec q)), setRecord inv pid (reserveRow rec q)) := by
  have hrec := (checkRow_iff).1 (wfInv_find hwf hfind)
  have hav2 : q ≤ rec.stock_quantity - rec.reserved_quantity := hav
  have hcheck : checkRow (reserveRow rec q) = true := by
    simp only [checkRow_iff, reserveRow]
    refine ⟨hrec.1, by linarith [hrec.2.1], by linarith⟩
  have hcond : ¬(pid = "" ∨ q ≤ 0) := by
    push_neg
    exact ⟨hpid, hq⟩
  simp only [reserve, reserveUpdate, hfind, if_neg hcond, if_neg (not_lt.mpr hav),
    hcheck, eq_self_iff_true, if_true]

theorem reserve_insufficient_of {inv : Inventory} {pid : String} {q : ℚ}
    {rec : InventoryRecord} (hpid : pid ≠ "") (hq : 0 < q)
    (hfind : findRecord inv pid = some rec) (hav : availOf rec < q) :
    reserve inv pid q = (.insufficientStock (availOf rec) q, inv) := by
  have hcond : ¬(pid = "" ∨ q ≤ 0) := by
    push_neg
    exact ⟨hpid, hq⟩
  simp only [reserve, hfind, if_neg hcond, if_pos hav]

theorem confirm_ok_of {inv : Inventory} {pid : String} {q : ℚ} {rec : InventoryRecord}
    (hwf : wfInv inv) (hpid : pid ≠ "") (hq : 0 < q)
    (hfind : findRecord inv pid = some rec) (hres : q ≤ rec.reserved_quantity) :
    confirmReservation inv pid q = (.ok, setRecord inv pid (confirmRow rec q)) := by
  have hrec := (checkRow_iff).1 (wfInv_find hwf hfind)
  have hcheck : checkRow (confirmRow rec q) = true := by
    simp only [checkRow_iff, confirmRow]
    refine ⟨by linarith [hrec.2.1, hrec.2.2], by linarith [hrec.2.1], by linarith [hrec.2.2]⟩
  have hcond : ¬(pid = "" ∨ q ≤ 0) := by
    push_neg
    exact ⟨hpid, hq⟩
  simp only [confirmReservation, hfind, if_neg hcond, hcheck, if_true]

theorem release_ok_of {inv : Inventory} {pid : String} {q : ℚ} {rec : InventoryRecord}
    (hwf : wfInv inv) (hpid : pid ≠ "") (hq : 0 < q)
    (hfind : findRecord inv pid = some rec) (hres : q ≤ rec.reserved_quantity) :
    releaseReservation inv pid q = (.ok, setRecord inv pid (releaseRow rec q)) := by
  have hrec := (checkRow_iff).1 (wfInv_find hwf hfind)
  have hcheck : checkRow (releaseRow rec q) = true := by
    simp only [checkRow_iff, releaseRow]
    refine ⟨hrec.1, by linarith, by linarith [hrec.2.2]⟩
  have hcond : ¬(pid = "" ∨ q ≤ 0) := by
    push_neg
    exact ⟨hpid, hq⟩
  simp only [releaseReservation, hfind, if_neg hcond, hcheck, if_true]

theorem confirm_notFound_of {inv : Inventory} {pid : String} {q : ℚ}
    (hpid : pid ≠ "") (hq : 0 < q) (hfind : findRecord inv pid = none) :
    confirmReservation inv pid q = (.notFound, inv) := by
  have hcond : ¬(pid = "" ∨ q ≤ 0) := by
    push_neg
    exact ⟨hpid, hq⟩
  simp only [confirmReservation, hfind, if_neg hcond]

theorem release_notFound_of {inv : Inventory} {pid : String} {q : ℚ}
    (hpid : pid ≠ "") (hq : 0 < q) (hfind : findRecord inv pid = none) :
    releaseReservation inv pid q = (.notFound, inv) := by
  have hcond : ¬(pid = "" ∨ q ≤ 0) := by
    push_neg
    exact ⟨hpid, hq⟩
  simp only [releaseReservation, hfind, if_neg hcond]

theorem confirm_state_cases (inv : Inventory) (pid : String) (q : ℚ) :
    (confirmReservation inv pid q).1 = MutateResult.ok ∨
    (confirmReservation inv pid q).2 = inv := by
  unfold confirmReservation
  split
  · exact Or.inr rfl
  · split
    · exact Or.inr rfl
    · split
      · exact Or.inl rfl
      · exact Or.inr rfl

theorem wf_reserve (inv : Inventory) (pid : String) (q : ℚ) (hwf : wfInv inv) :
    wfInv (reserve inv pid q).2 := by
  unfold reserve reserveUpdate
  repeat' split
  all_goals
    first
    | exact hwf
    | (apply wfInv_setRecord hwf; assumption)

theorem wf_confirm (inv : Inventory) (pid : String) (q : ℚ) (hwf : wfInv inv) :
    wfInv (confirmReservation inv pid q).2 := by
  unfold confirmReservation
  repeat' split
  all_goals
    first
    | exact hwf
    | (apply wfInv_setRecord hwf; assumption)

theorem wfInv_singleton {r : InventoryRecord} (h : checkRow r = true) : wfInv [r] := by
  intro x hx
  simp only [List.mem_singleton] at hx
  subst hx
  exact h

theorem wf_release (inv : Inventory) (pid : String) (q : ℚ) (hwf : wfInv inv) :
    wfInv (releaseReservation inv pid q).2 := by
  unfold releaseReservation
  repeat' split
  all_goals
    first
    | exact hwf
    | (apply wfInv_setRecord hwf; assumption)

/-!
Claim theorems for the inventory ledger.
-/

/-- C1: starting from any database state satisfying the row checks, each
of the three ledger mutations (reserve, confirm-reservation,
release-reservation) yields a state whose records all satisfy
stock_quantity >= 0, reserved_quantity >= 0 and
stock_quantity - reserved_quantity >= 0; and any write whose proposed
row would violate one of the checks is rejected outright (a non-ok
outcome) with the table left unchanged. -/
theorem ledger_mutations_preserve_invariant (inv : Inventory) (pid : String) (q : ℚ)
    (hwf : wfInv inv) :
    wfInv (reserve inv pid q).2 ∧
    wfInv (confirmReservation inv pid q).2 ∧
    wfInv (releaseReservation inv pid q).2 ∧
    (∀ rec, findRecord inv pid = some rec → checkRow (reserveRow rec q) = false →
      (reserve inv pid q).2 = inv ∧ ∀ a, (reserve inv pid q).1 ≠ ReserveResult.ok a) ∧
    (∀ rec, findRecord inv pid = some rec → checkRow (confirmRow rec q) = false →
      (confirmReservation inv pid q).2 = inv ∧
        (confirmReservation inv pid q).1 ≠ MutateResult.ok) ∧
    (∀ rec, findRecord inv pid = some rec → checkRow (releaseRow rec q) = false →
      (releaseReservation inv pid q).2 = inv ∧
        (releaseReservation inv pid q).1 ≠ MutateResult.ok) := by
  refine ⟨wf_reserve inv pid q hwf, wf_confirm inv pid q hwf, wf_release inv pid q hwf,
    ?_, ?_, ?_⟩
  · intro rec hfind hbad
    by_cases hcond : pid = "" ∨ q ≤ 0
    · simp [reserve, hcond]
    · by_cases hlt : availOf rec < q
      · simp [reserve, if_neg hcond, hfind, hlt]
      · simp [reserve, reserveUpdate, if_neg hcond, hfind, hlt, hbad]
  · intro rec hfind hbad
    by_cases hcond : pid = "" ∨ q ≤ 0
    · simp [confirmReservation, hcond]
    · simp [confirmReservation, if_neg hcond, hfind, hbad]
  · intro rec hfind hbad
    by_cases hcond : pid = "" ∨ q ≤ 0
    · simp [releaseReservation, hcond]
    · simp [releaseReservation, if_neg hcond, hfind, hbad]

/-- Witness for C1 at a concrete state: confirming 3 against a row with
stock 5, reserved 2 would drive reserved negative; the write is rejected
and the state, still well formed, is unchanged. -/
theorem ledger_mutations_preserve_invariant_witness :
    wfInv (confirmReservation [⟨"p1",5,2,0⟩] "p1" 3).2 ∧
    (confirmReservation [⟨"p1",5,2,0⟩] "p1" 3).2 = [⟨"p1",5,2,0⟩] ∧
    (confirmReservation [⟨"p1",5,2,0⟩] "p1" 3).1 ≠ MutateResult.ok := by
  have hwf : wfInv [(⟨"p1",5,2,0⟩ : InventoryRecord)] :=
    wfInv_singleton (by norm_num [checkRow])
  have hbad : checkRow (confirmRow ⟨"p1",5,2,0⟩ 3) = false := by
    have h2 : ¬ checkRow (confirmRow ⟨"p1",5,2,0⟩ 3) = true := by
      rw [checkRow_iff]
      norm_num [confirmRow]
    exact Bool.eq_false_iff.mpr h2
  have h := ledger_mutations_preserve_invariant [⟨"p1",5,2,0⟩] "p1" 3 hwf
  exact ⟨h.2.1, (h.2.2.2.2.1 ⟨"p1",5,2,0⟩ rfl hbad).1, (h.2.2.2.2.1 ⟨"p1",5,2,0⟩ rfl hbad).2⟩

/-- C2: for a well-formed state holding a record for pid and a positive
quantity, reserve answers InsufficientStock carrying the current
available and the requested quantity and mutates nothing when available
is short; otherwise it increments reserved_quantity by q and version by
one, leaves stock_quantity unchanged, and returns the new available
stock minus reserved plus q. -/
theorem reserve_spec (inv : Inventory) (pid : String) (q : ℚ) (rec : InventoryRecord)
    (hwf : wfInv inv) (hpid : pid ≠ "") (hq : 0 < q)
    (hfind : findRecord inv pid = some rec) :
    (availOf rec < q →
      reserve inv pid q = (.insufficientStock (availOf rec) q, inv)) ∧
    (q ≤ availOf rec →
      reserve inv pid q =
        (.ok (rec.stock_quantity - (rec.reserved_quantity + q)),
          setRecord inv pid
            { rec with reserved_quantity := rec.reserved_quantity + q,
                       version := rec.version + 1 })) := by
  constructor
  · intro hav
    exact reserve_insufficient_of hpid hq hfind hav
  · intro hav
    have h := reserve_ok_of hwf hpid hq hfind hav
    simpa [reserveRow, availOf] using h

/-- Witness for C2: the spec scenario stock 10, reserved 0, reserve 6
succeeds with new available 4. -/
theorem reserve_spec_witness :
    reserve [⟨"p1",10,0,0⟩] "p1" 6 = (.ok 4, [⟨"p1",10,6,1⟩]) := by
  have h := (reserve_spec [⟨"p1",10,0,0⟩] "p1" 6 ⟨"p1",10,0,0⟩
    (wfInv_singleton (by norm_num [checkRow])) (by decide) (by norm_num) rfl).2
    (by norm_num [availOf])
  rw [h]
  norm_num [setRecord]

/-- C10: in the sequential embedding the version read under the row lock
is the version the conditional UPDATE tests, so the
CONCURRENT_MODIFICATION branch of reserve is unreachable. -/
theorem sequential_reserve_no_concurrent_modification
    (inv : Inventory) (pid : String) (q : ℚ) :
    (reserve inv pid q).1 ≠ ReserveResult.concurrentModification := by
  unfold reserve reserveUpdate
  repeat' split
  all_goals simp_all

/-- C5 counterexample: a well-formed state with stock 5, reserved 2 and
the positive quantity 3 has a record for the product, yet
confirm-reservation does not decrement the two quantities; the write is
rejected by the database checks (reserved would become negative) and the
state is unchanged. -/
theorem confirm_overdraw_rejected_counterexample :
    wfInv [⟨"p1",5,2,0⟩] ∧ (0:ℚ) < 3 ∧
    findRecord [⟨"p1",5,2,0⟩] "p1" = some ⟨"p1",5,2,0⟩ ∧
    confirmReservation [⟨"p1",5,2,0⟩] "p1" 3 =
      (MutateResult.internalError, [⟨"p1",5,2,0⟩]) ∧
    (confirmReservation [⟨"p1",5,2,0⟩] "p1" 3).1 ≠ MutateResult.ok := by
  have heq : confirmReservation [⟨"p1",5,2,0⟩] "p1" 3 =
      (MutateResult.internalError, [⟨"p1",5,2,0⟩]) := by
    norm_num [confirmReservation, findRecord, checkRow, confirmRow]
    decide
  refine ⟨wfInv_singleton (by norm_num [checkRow]), by norm_num, rfl, heq, ?_⟩
  rw [heq]
  simp

/-- C5 amended: with the additional hypothesis that the quantity does
not exceed the reserved amount (which is guaranteed at reserve time for
confirmations of real reservations), confirm-reservation decrements
stock and reserved each by q in one mutation with no sufficiency
re-check, leaving available unchanged; a missing record yields NotFound
and changes nothing. -/
theorem confirm_spec (inv : Inventory) (pid : String) (q : ℚ)
    (hwf : wfInv inv) (hpid : pid ≠ "") (hq : 0 < q) :
    (∀ rec, findRecord inv pid = some rec → q ≤ rec.reserved_quantity →
      confirmReservation inv pid q =
        (.ok, setRecord inv pid
          { rec with stock_quantity := rec.stock_quantity - q,
                     reserved_quantity := rec.reserved_quantity - q }) ∧
      availOf (confirmRow rec q) = availOf rec) ∧
    (findRecord inv pid = none → confirmReservation inv pid q = (.notFound, inv)) := by
  constructor
  · intro rec hfind hres
    refine ⟨confirm_ok_of hwf hpid hq hfind hres, ?_⟩
    simp only [confirmRow, availOf]
    ring
  · intro hfind
    exact confirm_notFound_of hpid hq hfind

/-- Witness for C5 amended: confirming the reserved 6 of a stock 10,
reserved 6 row consumes the stock permanently. -/
theorem confirm_spec_witness :
    confirmReservation [⟨"p1",10,6,1⟩] "p1" 6 = (.ok, [⟨"p1",4,0,1⟩]) := by
  have h := ((confirm_spec [⟨"p1",10,6,1⟩] "p1" 6
    (wfInv_singleton (by norm_num [checkRow])) (by decide) (by norm_num)).1
    ⟨"p1",10,6,1⟩ rfl (by norm_num)).1
  rw [h]
  norm_num [setRecord]

/-- C6: for a well-formed state holding a record for pid and a positive
quantity at most the reserved amount, release-reservation decrements
reserved_quantity by q and leaves stock_quantity, product_id and version
unchanged, so available increases by exactly q; a missing record yields
NotFound with no state change. -/
theorem release_spec (inv : Inventory) (pid : String) (q : ℚ)
    (hwf : wfInv inv) (hpid : pid ≠ "") (hq : 0 < q) :
    (∀ rec, findRecord inv pid = some rec → q ≤ rec.reserved_quantity →
      releaseReservation inv pid q =
        (.ok, setRecord inv pid
          { rec with reserved_quantity := rec.reserved_quantity - q }) ∧
      (releaseRow rec q).stock_quantity = rec.stock_quantity ∧
      (releaseRow rec q).product_id = rec.product_id ∧
      (releaseRow rec q).version = rec.version ∧
      availOf (releaseRow rec q) = availOf rec + q) ∧
    (findRecord inv pid = none → releaseReservation inv pid q = (.notFound, inv)) := by
  constructor
  · intro rec hfind hres
    refine ⟨release_ok_of hwf hpid hq hfind hres, rfl, rfl, rfl, ?_⟩
    simp only [releaseRow, availOf]
    ring
  · intro hfind
    exact release_notFound_of hpid hq hfind

/-- Witness for C6: the spec scenario, releasing a reservation of 3 on a
stock 10, reserved 3 row restores available to 10. -/
theorem release_spec_witness :
    releaseReservation [⟨"p1",10,3,1⟩] "p1" 3 = (.ok, [⟨"p1",10,0,1⟩]) := by
  have h := ((release_spec [⟨"p1",10,3,1⟩] "p1" 3
    (wfInv_singleton (by norm_num [checkRow])) (by decide) (by norm_num)).1
    ⟨"p1",10,3,1⟩ rfl (by norm_num)).1
  rw [h]
  norm_num [setRecord]

/-!
Helper lemmas and claim theorems for the idempotent event consumer.
-/

theorem lookupEvent_pruneEvents_cons (pe : ProcessedEvents) (eid : String)
    (e : ProcessedEntry) (now : Nat) (h : now - 3600000 ≤ e.timestamp) :
    lookupEvent (pruneEvents ((eid, e) :: pe) now) eid = some e := by
  unfold pruneEvents
  split
  · rw [List.filter_cons_of_pos (by simpa using h)]
    simp [lookupEvent]
  · simp [lookupEvent]

theorem webhook_success_step {inv : Inventory} {pe : ProcessedEvents}
    {req : WebhookRequest} {rec : InventoryRecord} (now : Nat)
    (hwf : wfInv inv) (he : req.event_id ≠ "") (hp : req.product_id ≠ "")
    (hq : 0 < req.quantity) (hres : req.quantity ≤ rec.reserved_quantity)
    (hfind : findRecord inv req.product_id = some rec)
    (hnew : lookupEvent pe req.event_id = none) :
    webhookOrderCreated inv pe req now =
      (.success, setRecord inv req.product_id (confirmRow rec req.quantity),
        pruneEvents ((req.event_id,
          ⟨now, req.order_id, req.product_id, req.quantity⟩) :: pe) now) := by
  have hc := confirm_ok_of hwf hp hq hfind hres
  have hcond : ¬(req.event_id = "" ∨ req.product_id = "" ∨ req.quantity = 0) := by
    push_neg
    exact ⟨he, hp, ne_of_gt hq⟩
  simp [webhookOrderCreated, if_neg hcond, hnew, hc]

theorem webhook_duplicate_step {inv : Inventory} {pe : ProcessedEvents}
    {req : WebhookRequest} {now : Nat} {e : ProcessedEntry}
    (he : req.event_id ≠ "") (hp : req.product_id ≠ "") (hq : req.quantity ≠ 0)
    (hfound : lookupEvent pe req.event_id = some e) :
    webhookOrderCreated inv pe req now = (.duplicate, inv, pe) := by
  have hcond : ¬(req.event_id = "" ∨ req.product_id = "" ∨ req.quantity = 0) := by
    push_neg
    exact ⟨he, hp, hq⟩
  simp [webhookOrderCreated, if_neg hcond, hfound]

theorem deliverAll_fixpoint {inv : Inventory} {pe : ProcessedEvents}
    {req : WebhookRequest} {e : ProcessedEntry}
    (he : req.event_id ≠ "") (hp : req.product_id ≠ "") (hq : req.quantity ≠ 0)
    (hfound : lookupEvent pe req.event_id = some e) :
    ∀ ts : List Nat, deliverAll req inv pe ts = (inv, pe)
  | [] => rfl
  | t :: ts => by
    rw [deliverAll]
    simp only [webhook_duplicate_step he hp hq hfound]
    exact deliverAll_fixpoint he hp hq hfound ts

/-- C3 counterexample: the notification with event id e1 for product p9,
quantity 2, delivered to a state whose inventory has no record for p9,
is answered with the propagated NotFound failure and leaves both the
inventory and the processed-event set unchanged; hence a second,
identical delivery is the very same call and again does not return a
success marked duplicate, and no ConfirmReservation is ever applied —
contradicting the claim that for every notification delivered N times
the confirm applies exactly once and every delivery after the first is
answered as a duplicate. -/
theorem webhook_redelivery_not_duplicate_counterexample :
    webhookOrderCreated [] [] ⟨"e1","o1","p9",2⟩ 0 =
      (.confirmFailed MutateResult.notFound, [], []) ∧
    (webhookOrderCreated [] [] ⟨"e1","o1","p9",2⟩ 0).1 ≠ WebhookResult.duplicate ∧
    (webhookOrderCreated [] [] ⟨"e1","o1","p9",2⟩ 0).1 ≠ WebhookResult.success := by
  decide

/-- C3 amended: provided the state lets the first confirmation succeed —
the inventory holds a record for the product with quantity at most its
reserved amount, the payload fields are present, and the event id is not
yet in the processed set — the first delivery applies ConfirmReservation
(stock_quantity decreases by quantity) and records the event id, and
every later delivery of the same notification returns duplicate without
touching inventory or the processed set, for any number of redeliveries. -/
theorem webhook_idempotent_after_success (inv : Inventory) (pe : ProcessedEvents)
    (req : WebhookRequest) (t : Nat) (rec : InventoryRecord)
    (hwf : wfInv inv) (he : req.event_id ≠ "") (hp : req.product_id ≠ "")
    (hq : 0 < req.quantity) (hres : req.quantity ≤ rec.reserved_quantity)
    (hfind : findRecord inv req.product_id = some rec)
    (hnew : lookupEvent pe req.event_id = none) :
    webhookOrderCreated inv pe req t =
      (.success, setRecord inv req.product_id (confirmRow rec req.quantity),
        pruneEvents ((req.event_id,
          ⟨t, req.order_id, req.product_id, req.quantity⟩) :: pe) t) ∧
    (∀ t2, webhookOrderCreated (webhookOrderCreated inv pe req t).2.1
        (webhookOrderCreated inv pe req t).2.2 req t2 =
      (.duplicate, (webhookOrderCreated inv pe req t).2.1,
        (webhookOrderCreated inv pe req t).2.2)) ∧
    (∀ ts, deliverAll req (webhookOrderCreated inv pe req t).2.1
        (webhookOrderCreated inv pe req t).2.2 ts =
      ((webhookOrderCreated inv pe req t).2.1,
        (webhookOrderCreated inv pe req t).2.2)) := by
  have h1 := webhook_success_step t hwf he hp hq hres hfind hnew
  have hfound : lookupEvent (webhookOrderCreated inv pe req t).2.2 req.event_id =
      some ⟨t, req.order_id, req.product_id, req.quantity⟩ := by
    rw [h1]
    exact lookupEvent_pruneEvents_cons pe req.event_id _ t (Nat.sub_le t 3600000)
  refine ⟨h1, ?_, ?_⟩
  · intro t2
    exact webhook_duplicate_step he hp (ne_of_gt hq) hfound
  · intro ts
    exact deliverAll_fixpoint he hp (ne_of_gt hq) hfound ts

/-- Witness for C3 amended: confirming the reserved 6 of stock 10 via
the webhook, then any redelivery of the same event id is a duplicate. -/
theorem webhook_idempotent_after_success_witness :
    webhookOrderCreated [⟨"p1",10,6,1⟩] [] ⟨"e1","o1","p1",6⟩ 100 =
      (.success, setRecord [⟨"p1",10,6,1⟩] "p1" (confirmRow ⟨"p1",10,6,1⟩ 6),
        pruneEvents [("e1", ⟨100,"o1","p1",6⟩)] 100) :=
  (webhook_idempotent_after_success [⟨"p1",10,6,1⟩] [] ⟨"e1","o1","p1",6⟩ 100
    ⟨"p1",10,6,1⟩ (wfInv_singleton (by norm_num [checkRow])) (by decide) (by decide)
    (by norm_num) (by norm_num) rfl rfl).1

/-- C7: when the consumer's confirm-reservation call does not succeed,
the webhook propagates the confirm outcome unchanged, does not record
the event id, and leaves the inventory untouched, so a redelivery of the
same event id is the identical call — it retries the confirmation and is
never answered as a duplicate. -/
theorem webhook_propagates_confirm_failure (inv : Inventory) (pe : ProcessedEvents)
    (req : WebhookRequest)
    (he : req.event_id ≠ "") (hp : req.product_id ≠ "") (hq : req.quantity ≠ 0)
    (hnew : lookupEvent pe req.event_id = none)
    (hfail : (confirmReservation inv req.product_id req.quantity).1 ≠ MutateResult.ok) :
    ∀ t, webhookOrderCreated inv pe req t =
      (.confirmFailed (confirmReservation inv req.product_id req.quantity).1, inv, pe) ∧
      (webhookOrderCreated inv pe req t).1 ≠ WebhookResult.duplicate := by
  intro t
  have hstate : (confirmReservation inv req.product_id req.quantity).2 = inv :=
    (confirm_state_cases inv req.product_id req.quantity).resolve_left hfail
  have hcond : ¬(req.event_id = "" ∨ req.product_id = "" ∨ req.quantity = 0) := by
    push_neg
    exact ⟨he, hp, hq⟩
  have key : webhookOrderCreated inv pe req t =
      (.confirmFailed (confirmReservation inv req.product_id req.quantity).1, inv, pe) := by
    simp only [webhookOrderCreated, if_neg hcond, hnew, Option.isSome_none,
      Bool.false_eq_true, if_false]
    cases hc : (confirmReservation inv req.product_id req.quantity).1 with
    | ok => exact absurd hc hfail
    | validationError => simp [hstate]
    | notFound => simp [hstate]
    | internalError => simp [hstate]
  refine ⟨key, ?_⟩
  rw [key]
  simp

/-- Witness for C7: a notification for a product missing from inventory
is answered with the propagated NotFound and nothing is recorded. -/
theorem webhook_propagates_confirm_failure_witness :
    webhookOrderCreated [] [] ⟨"e1","o1","p9",2⟩ 7 =
      (.confirmFailed (confirmReservation [] "p9" 2).1, [], []) :=
  (webhook_propagates_confirm_failure [] [] ⟨"e1","o1","p9",2⟩ (by decide) (by decide)
    (by decide) rfl (by decide) 7).1

/-!
Helper lemmas for the order orchestrator.
-/

theorem validateOrder_facts {r : OrderRequest} {q : ℚ} (hq : r.quantity = some q)
    (h : validateOrder r = true) :
    r.userId ≠ "" ∧ r.productId ≠ "" ∧ 0 < q ∧ q ≤ 10000 := by
  unfold validateOrder at h
  rw [hq] at h
  simp only [Option.getD_some] at h
  by_cases h1 : r.userId = "" ∨ r.productId = "" ∨ q = 0
  · rw [if_pos h1] at h
    cases h
  · rw [if_neg h1] at h
    by_cases h2 : q ≤ 0 ∨ 10000 < q
    · rw [if_pos h2] at h
      cases h
    · push_neg at h1 h2
      exact ⟨h1.1, h1.2.1, h2.1, h2.2⟩

theorem validateOrder_false_iff (r : OrderRequest) :
    validateOrder r = false ↔
      (r.userId = "" ∨ r.productId = "" ∨ r.quantity = none ∨
        ∃ q, r.quantity = some q ∧ (q ≤ 0 ∨ 10000 < q)) := by
  unfold validateOrder
  cases hq : r.quantity with
  | none => simp [hq]
  | some q =>
    simp only [hq, Option.getD_some, Option.some.injEq, reduceCtorEq]
    by_cases h1 : r.userId = "" ∨ r.productId = "" ∨ q = 0
    · rw [if_pos h1]
      rcases h1 with h | h | h
      · simp [h]
      · simp [h]
      · subst h
        simp
    · rw [if_neg h1]
      push_neg at h1
      by_cases h2 : q ≤ 0 ∨ 10000 < q
      · rw [if_pos h2]
        simp only [eq_self_iff_true, true_iff]
        exact Or.inr (Or.inr (Or.inr ⟨q, rfl, h2⟩))
      · rw [if_neg h2]
        simp [h1.1, h1.2.1, h1.2.2]
        push_neg at h2
        exact h2

theorem createOrder_validation {env : SagaEnv} {s : SysState} {r : OrderRequest}
    (h : validateOrder r = false) :
    createOrder env s r = (.validationError, s, []) := by
  simp [createOrder, h]

theorem createOrder_duplicate {env : SagaEnv} {s : SysState} {r : OrderRequest}
    {k : String} {o : Order}
    (hvalid : validateOrder r = true) (hk : r.idempotencyKey = some k) (hk2 : k ≠ "")
    (hfound : findOrderByKey s.orders k = some o) :
    createOrder env s r = (.duplicateOrder o, s, []) := by
  have hidem : idemLookup s r = some o := by
    simp [idemLookup, hk, hk2, hfound]
  simp [createOrder, hvalid, hidem]

theorem checkRow_reserveRow {rec : InventoryRecord} {q : ℚ}
    (hrec : checkRow rec = true) (hq : 0 < q) (hav : q ≤ availOf rec) :
    checkRow (reserveRow rec q) = true := by
  have h := (checkRow_iff).1 hrec
  have hav2 : q ≤ rec.stock_quantity - rec.reserved_quantity := hav
  simp only [checkRow_iff, reserveRow]
  exact ⟨h.1, by linarith [h.2.1], by linarith⟩

theorem createOrder_after_reserve_ok {env : SagaEnv} {s : SysState} {r : OrderRequest}
    {q price : ℚ} {rec : InventoryRecord}
    (hq : r.quantity = some q) (hvalid : validateOrder r = true)
    (hidem : idemLookup s r = none) (hlook : env.lookup = .found price)
    (hwf : wfInv s.inventory) (hfind : findRecord s.inventory r.productId = some rec)
    (hav : q ≤ availOf rec) :
    createOrder env s r =
      if env.insertFails then
        (.internalError,
          ⟨runCompensation env (setRecord s.inventory r.productId (reserveRow rec q))
            r.productId q, s.orders⟩,
          [.lookupCall r.productId, .reserveCall r.productId q, .insertCall,
            .releaseCall r.productId q])
      else if env.publishFails then
        (.internalError,
          ⟨runCompensation env (setRecord s.inventory r.productId (reserveRow rec q))
            r.productId q, s.orders⟩,
          [.lookupCall r.productId, .reserveCall r.productId q, .insertCall,
            .publishCall, .releaseCall r.productId q])
      else
        (.created ⟨env.newOrderId, r.userId, r.productId, q, price * q, "pending",
            storedKey r⟩ (availOf (reserveRow rec q)),
          ⟨setRecord s.inventory r.productId (reserveRow rec q),
            s.orders ++ [⟨env.newOrderId, r.userId, r.productId, q, price * q,
              "pending", storedKey r⟩]⟩,
          [.lookupCall r.productId, .reserveCall r.productId q, .insertCall,
            .publishCall]) := by
  obtain ⟨hu, hpid, hq0, hle⟩ := validateOrder_facts hq hvalid
  have hres := reserve_ok_of hwf hpid hq0 hfind hav
  simp [createOrder, hvalid, hidem, hlook, hq, hres]

theorem availableOf_release_after_reserve {inv : Inventory} {pid : String}
    {q : ℚ} {rec : InventoryRecord}
    (hwf : wfInv inv) (hpid : pid ≠ "") (hq0 : 0 < q)
    (hfind : findRecord inv pid = some rec) (hav : q ≤ availOf rec) :
    availableOf (releaseReservation (setRecord inv pid (reserveRow rec q)) pid q).2 pid =
      availableOf inv pid := by
  have hrec := wfInv_find hwf hfind
  have hcheck := checkRow_reserveRow hrec hq0 hav
  have hwf1 : wfInv (setRecord inv pid (reserveRow rec q)) := wfInv_setRecord hwf hcheck
  have hrowpid : (reserveRow rec q).product_id = pid := by
    simp [reserveRow, findRecord_pid hfind]
  have hfind1 : findRecord (setRecord inv pid (reserveRow rec q)) pid =
      some (reserveRow rec q) := findRecord_setRecord_self hfind hrowpid
  have hres2 : q ≤ (reserveRow rec q).reserved_quantity := by
    have h := (checkRow_iff).1 hrec
    simp only [reserveRow]
    linarith [h.2.1]
  have hrel := release_ok_of hwf1 hpid hq0 hfind1 hres2
  rw [hrel]
  have hrowpid2 : (releaseRow (reserveRow rec q) q).product_id = pid := by
    simp [releaseRow, reserveRow, findRecord_pid hfind]
  have hfind2 := findRecord_setRecord_self hfind1 hrowpid2
  simp only [availableOf, hfind2, hfind, Option.map_some', Option.some.injEq]
  unfold availOf releaseRow reserveRow
  dsimp only
  ring

theorem countOrdersWithKey_append (l1 l2 : List Order) (k : String) :
    countOrdersWithKey (l1 ++ l2) k =
      countOrdersWithKey l1 k + countOrdersWithKey l2 k := by
  induction l1 with
  | nil => simp [countOrdersWithKey]
  | cons o rest ih =>
    simp only [List.cons_append, countOrdersWithKey, List.append_eq, ih]
    rw [Nat.add_assoc]

theorem countOrdersWithKey_eq_zero : ∀ {l : List Order} {k : String},
    findOrderByKey l k = none → countOrdersWithKey l k = 0
  | [], _, _ => rfl
  | o :: rest, k, h => by
    by_cases ho : o.idempotency_key = some k
    · rw [findOrderByKey, if_pos ho] at h
      cases h
    · rw [findOrderByKey, if_neg ho] at h
      rw [countOrdersWithKey, if_neg ho, countOrdersWithKey_eq_zero h]

theorem findOrderByKey_append_none : ∀ {l : List Order} {k : String},
    findOrderByKey l k = none → ∀ o : Order,
    findOrderByKey (l ++ [o]) k = findOrderByKey [o] k
  | [], _, _, o => by simp
  | x :: rest, k, h, o => by
    by_cases hx : x.idempotency_key = some k
    · rw [findOrderByKey, if_pos hx] at h
      cases h
    · rw [findOrderByKey, if_neg hx] at h
      rw [List.cons_append, findOrderByKey, if_neg hx]
      exact findOrderByKey_append_none h o

/-!
Claim theorems for the order orchestrator.
-/

/-- C4: whenever the reserve step succeeded and the order-row insert or
the event publication fails, the orchestrator answers with the internal
error, persists no order row (the local transaction is rolled back),
issues exactly one release-reservation call for the same product and
quantity (never retrying it, even when it fails), and — when the release
call goes through — the available stock of the product returns to its
pre-reservation value. -/
theorem saga_compensation_spec (env : SagaEnv) (s : SysState) (r : OrderRequest)
    (q price : ℚ) (rec : InventoryRecord)
    (hq : r.quantity = some q) (hvalid : validateOrder r = true)
    (hidem : idemLookup s r = none) (hlook : env.lookup = .found price)
    (hwf : wfInv s.inventory) (hfind : findRecord s.inventory r.productId = some rec)
    (hav : q ≤ availOf rec)
    (hfail : env.insertFails = true ∨ env.publishFails = true) :
    (createOrder env s r).1 = OrderResponse.internalError ∧
    (createOrder env s r).2.1.orders = s.orders ∧
    countReleaseCalls (createOrder env s r).2.2 r.productId q = 1 ∧
    (env.releaseFails = false →
      availableOf (createOrder env s r).2.1.inventory r.productId =
        availableOf s.inventory r.productId) := by
  obtain ⟨hu, hpid, hq0, hle⟩ := validateOrder_facts hq hvalid
  have h := createOrder_after_reserve_ok hq hvalid hidem hlook hwf hfind hav
  have hcomp : env.releaseFails = false →
      availableOf (runCompensation env
        (setRecord s.inventory r.productId (reserveRow rec q)) r.productId q)
        r.productId = availableOf s.inventory r.productId := by
    intro hrf
    unfold runCompensation
    rw [hrf]
    simp only [Bool.false_eq_true, if_false]
    exact availableOf_release_after_reserve hwf hpid hq0 hfind hav
  by_cases hi : env.insertFails
  · rw [h, if_pos hi]
    exact ⟨rfl, rfl, by simp [countReleaseCalls], hcomp⟩
  · have hp : env.publishFails = true := by
      rcases hfail with hf | hf
      · exact absurd hf hi
      · exact hf
    rw [h, if_neg hi, if_pos hp]
    exact ⟨rfl, rfl, by simp [countReleaseCalls], hcomp⟩

/-- Witness for C4: the spec scenario — reserve 3 of stock 10 succeeds,
the publish fails, the release runs, and available returns to 10. -/
theorem saga_compensation_spec_witness :
    (createOrder ⟨.found 5, false, true, false, "o1"⟩ ⟨[⟨"p1",10,0,0⟩],[]⟩
        ⟨"u1","p1",some 3,none⟩).1 = OrderResponse.internalError ∧
    availableOf (createOrder ⟨.found 5, false, true, false, "o1"⟩ ⟨[⟨"p1",10,0,0⟩],[]⟩
        ⟨"u1","p1",some 3,none⟩).2.1.inventory "p1" =
      availableOf [⟨"p1",10,0,0⟩] "p1" := by
  have h := saga_compensation_spec ⟨.found 5, false, true, false, "o1"⟩
    ⟨[⟨"p1",10,0,0⟩],[]⟩ ⟨"u1","p1",some 3,none⟩ 3 5 ⟨"p1",10,0,0⟩
    rfl (by decide) rfl rfl (wfInv_singleton (by norm_num [checkRow])) rfl
    (by norm_num [availOf]) (Or.inr rfl)
  exact ⟨h.1, h.2.2.2 rfl⟩

/-- C8: when a nonempty idempotency key is supplied, an existing order
row with that key short-circuits the saga — the response is that order
marked as a duplicate, the state is untouched and no outbound call is
made; and a first submission that created an order is answered on
resubmission with that same order, leaving exactly one order row with
the key. -/
theorem order_idempotency_spec (env1 env2 : SagaEnv) (s : SysState) (r : OrderRequest)
    (k : String) (price q : ℚ) (rec : InventoryRecord)
    (hk : r.idempotencyKey = some k) (hk2 : k ≠ "") (hq : r.quantity = some q)
    (hvalid : validateOrder r = true) (hwf : wfInv s.inventory) :
    (∀ o, findOrderByKey s.orders k = some o →
      createOrder env1 s r = (.duplicateOrder o, s, [])) ∧
    (findOrderByKey s.orders k = none →
      env1.lookup = .found price → env1.insertFails = false →
      env1.publishFails = false →
      findRecord s.inventory r.productId = some rec → q ≤ availOf rec →
      ∃ o s1, createOrder env1 s r =
          (.created o (availOf (reserveRow rec q)), s1,
            [.lookupCall r.productId, .reserveCall r.productId q, .insertCall,
              .publishCall]) ∧
        o.idempotency_key = some k ∧
        s1.orders = s.orders ++ [o] ∧
        countOrdersWithKey s1.orders k = 1 ∧
        createOrder env2 s1 r = (.duplicateOrder o, s1, [])) := by
  constructor
  · intro o hfound
    exact createOrder_duplicate hvalid hk hk2 hfound
  · intro hnone hlook hin hpub hfind hav
    have hidem : idemLookup s r = none := by
      simp [idemLookup, hk, hk2, hnone]
    have hkey : storedKey r = some k := by
      simp [storedKey, hk, hk2]
    have h := createOrder_after_reserve_ok hq hvalid hidem hlook hwf hfind hav
    simp only [hin, hpub, Bool.false_eq_true, if_false] at h
    refine ⟨⟨env1.newOrderId, r.userId, r.productId, q, price * q, "pending",
        storedKey r⟩,
      ⟨setRecord s.inventory r.productId (reserveRow rec q),
        s.orders ++ [⟨env1.newOrderId, r.userId, r.productId, q, price * q,
          "pending", storedKey r⟩]⟩,
      h, hkey, rfl, ?_, ?_⟩
    · rw [countOrdersWithKey_append, countOrdersWithKey_eq_zero hnone]
      simp [countOrdersWithKey, hkey]
    · have hfound2 : findOrderByKey
          (s.orders ++ [⟨env1.newOrderId, r.userId, r.productId, q, price * q,
            "pending", storedKey r⟩]) k =
          some ⟨env1.newOrderId, r.userId, r.productId, q, price * q,
            "pending", storedKey r⟩ := by
        rw [findOrderByKey_append_none hnone]
        simp [findOrderByKey, hkey]
      exact createOrder_duplicate hvalid hk hk2 hfound2

/-- Witness for C8: resubmitting key k1 when an order with that key
already exists returns that order as a duplicate with no calls made. -/
theorem order_idempotency_spec_witness :
    createOrder ⟨.found 5, false, false, false, "o1"⟩
      ⟨[⟨"p1",10,0,0⟩], [⟨"o0","u1","p1",1,5,"pending",some "k1"⟩]⟩
      ⟨"u1","p1",some 3,some "k1"⟩ =
      (.duplicateOrder ⟨"o0","u1","p1",1,5,"pending",some "k1"⟩,
        ⟨[⟨"p1",10,0,0⟩], [⟨"o0","u1","p1",1,5,"pending",some "k1"⟩]⟩, []) :=
  (order_idempotency_spec ⟨.found 5, false, false, false, "o1"⟩
    ⟨.found 5, false, false, false, "o2"⟩
    ⟨[⟨"p1",10,0,0⟩], [⟨"o0","u1","p1",1,5,"pending",some "k1"⟩]⟩
    ⟨"u1","p1",some 3,some "k1"⟩ "k1" 5 3 ⟨"p1",10,0,0⟩
    rfl (by decide) rfl (by decide)
    (wfInv_singleton (by norm_num [checkRow]))).1
    ⟨"o0","u1","p1",1,5,"pending",some "k1"⟩ rfl

/-- C9 counterexample: the request with quantity three halves — not an
integer — passes the validation (the code checks only that the quantity
is a number in the range) and the saga proceeds to the product lookup
and the ledger reserve call instead of being rejected with a 400. -/
theorem validation_accepts_noninteger_quantity_counterexample :
    validateOrder ⟨"u1","p1", some ((3:ℚ)/2), none⟩ = true ∧
    ((3:ℚ)/2).den ≠ 1 ∧
    (createOrder ⟨.found 5, false, false, false, "o1"⟩ ⟨[⟨"p1",10,0,0⟩],[]⟩
      ⟨"u1","p1", some ((3:ℚ)/2), none⟩).1 ≠ OrderResponse.validationError ∧
    (createOrder ⟨.found 5, false, false, false, "o1"⟩ ⟨[⟨"p1",10,0,0⟩],[]⟩
      ⟨"u1","p1", some ((3:ℚ)/2), none⟩).2.2 ≠ [] := by
  have hv : validateOrder ⟨"u1","p1", some ((3:ℚ)/2), none⟩ = true := by
    norm_num [validateOrder]
    decide
  have h := @createOrder_after_reserve_ok ⟨.found 5, false, false, false, "o1"⟩
    ⟨[⟨"p1",10,0,0⟩],[]⟩ ⟨"u1","p1", some ((3:ℚ)/2), none⟩
    ((3:ℚ)/2) 5 ⟨"p1",10,0,0⟩
    rfl hv rfl rfl (wfInv_singleton (by norm_num [checkRow])) rfl
    (by norm_num [availOf])
  rw [if_neg (by decide), if_neg (by decide)] at h
  refine ⟨hv, by norm_num [Rat.den], ?_, ?_⟩
  · rw [h]
    simp
  · rw [h]
    simp

/-- C9 amended: the validation rejects the request with a 400 before any
product-lookup or ledger call exactly when userId, productId or quantity
is absent (falsy), or the quantity is not a number in the interval from
0 exclusive to 10000 inclusive; in particular quantity 0 gets a 400 and
no call is made.  Integrality of the quantity is not checked. -/
theorem order_validation_spec (env : SagaEnv) (s : SysState) (r : OrderRequest) :
    (validateOrder r = false ↔
      (r.userId = "" ∨ r.productId = "" ∨ r.quantity = none ∨
        ∃ q, r.quantity = some q ∧ (q ≤ 0 ∨ 10000 < q))) ∧
    (validateOrder r = false → createOrder env s r = (.validationError, s, [])) :=
  ⟨validateOrder_false_iff r, fun h => createOrder_validation h⟩

/-- Witness for C9 amended: the spec scenario — quantity 0 is rejected
with a validation error and no outbound call. -/
theorem order_validation_spec_witness :
    createOrder ⟨.found 5, false, false, false, "o1"⟩ ⟨[⟨"p1",10,0,0⟩],[]⟩
      ⟨"u1","p1", some 0, none⟩ =
      (.validationError, ⟨[⟨"p1",10,0,0⟩],[]⟩, []) :=
  (order_validation_spec ⟨.found 5, false, false, false, "o1"⟩ ⟨[⟨"p1",10,0,0⟩],[]⟩
    ⟨"u1","p1", some 0, none⟩).2 (by norm_num [validateOrder])

end CloudRetail
